import Mathlib

set_option maxRecDepth 100000

/-!
Verification of the template matching and field-extraction engine of the
apex-ai-backend repository (file src/api/architects_extractor.py).

Modelling conventions:
* Python strings are modelled as Lean `String` / `List Char`; text helpers
  (strip, lower, splitlines) mirror the Python methods on the ASCII range,
  with the common Unicode whitespace code points included for strip and for
  the regex class of whitespace.
* Python floats appear only as exact decimal arithmetic (parsing a decimal
  digit string, multiplying by 1000 or 1000000); they are modelled as exact
  rationals, which agrees with IEEE doubles on every value the claims touch.
* Python ints are modelled as `Int` (the values produced here are digit
  strings, hence non-negative).
* The regular expressions of the source are built from a small fixed set of
  constructs (case-insensitive literals, whitespace runs, lazy and greedy
  dot captures, digit captures, an optional literal, and an
  end-or-literal alternative); they are interpreted by a backtracking
  matcher that follows the leftmost / alternation-priority semantics of the
  Python `re` module on exactly these constructs.
-/

namespace Apex

/-- Whitespace as recognised by Python `str.strip` and the regex class `\s`
(ASCII whitespace plus the common Unicode whitespace code points). -/
def pyIsSpace (c : Char) : Bool :=
  c = ' ' || c = '\t' || c = '\n' || c = '\r' || c.val = 11 || c.val = 12 ||
  (28 ≤ c.val && c.val ≤ 31) || c.val = 133 || c.val = 160 || c.val = 5760 ||
  (8192 ≤ c.val && c.val ≤ 8202) || c.val = 8232 || c.val = 8233 ||
  c.val = 8239 || c.val = 8287 || c.val = 12288

/-- Python `str.strip`. -/
def pyStrip (l : List Char) : List Char :=
  ((l.dropWhile pyIsSpace).reverse.dropWhile pyIsSpace).reverse

/-- ASCII lower casing, as used by `str.lower` on the texts in scope. -/
def lowerChar (c : Char) : Char :=
  if 'A' ≤ c ∧ c ≤ 'Z' then Char.ofNat (c.toNat + 32) else c

/-- Python substring test `needle in hay` (empty needle is contained). -/
def listContains (hay needle : List Char) : Bool :=
  if needle.isPrefixOf hay then true
  else match hay with
    | [] => false
    | _ :: t => listContains t needle

/-- Line terminators recognised by Python `str.splitlines`. -/
def isLineEnd (c : Char) : Bool :=
  c = '\n' || c = '\r' || c.val = 11 || c.val = 12 || c.val = 28 ||
  c.val = 29 || c.val = 30 || c.val = 133 || c.val = 8232 || c.val = 8233

/-- Worker for `str.splitlines` (the accumulator holds the current line
reversed); a `\r\n` pair counts as a single terminator and a terminal
line break produces no trailing empty line. -/
def pySplitlinesGo : List Char → List Char → List (List Char)
  | cur, [] => if cur = [] then [] else [cur.reverse]
  | cur, '\r' :: '\n' :: r => cur.reverse :: pySplitlinesGo [] r
  | cur, c :: r =>
    if isLineEnd c then cur.reverse :: pySplitlinesGo [] r
    else pySplitlinesGo (c :: cur) r

/-- Python `str.splitlines`. -/
def pySplitlines (l : List Char) : List (List Char) := pySplitlinesGo [] l

/-- Python `" ".join`. -/
def joinSpace : List String → List Char
  | [] => []
  | [l] => l.data
  | l :: ls => l.data ++ ' ' :: joinSpace ls

/-- Digit-string value (`int` on a non-empty string of decimal digits). -/
def natOfDigits (l : List Char) : Nat :=
  l.foldl (fun a c => a * 10 + (c.toNat - 48)) 0

/-!  ## Normalisation helpers (`parse_money`, `parse_int`, `parse_date`)  -/

/-- Textual part of `parse_money`: strip and lower, drop commas, record a
multiplier exponent of 3 for a `k` and 6 for an `m` (an `m` seen after a
`k` overwrites the multiplier), drop the currency sign and every
character that is not a digit or a dot, and split the remainder as
Python `float` does (at most one dot, at least one digit).  The result
holds the integer-part value, the fraction-part value, the fraction
length and the multiplier exponent; `None`, the empty string and an
unparsable remainder give no value. -/
def moneyScan (value : Option String) : Option (Nat × Nat × Nat × Nat) :=
  match value with
  | none => none
  | some s =>
    if s.data = [] then none else
    let v1 := ((pyStrip s.data).map lowerChar).filter (· ≠ ',')
    let hasK := v1.contains 'k'
    let v2 := if hasK then v1.filter (· ≠ 'k') else v1
    let hasM := v2.contains 'm'
    let v3 := if hasM then v2.filter (· ≠ 'm') else v2
    let e : Nat := if hasM then 6 else if hasK then 3 else 0
    let v5 := (v3.filter (· ≠ '£')).filter (fun c => c.isDigit || c = '.')
    if v5 = [] then none
    else
      let intPart := v5.takeWhile (· ≠ '.')
      match v5.dropWhile (· ≠ '.') with
      | [] => if intPart = [] then none else some (natOfDigits intPart, 0, 0, e)
      | _ :: frac =>
        if frac.contains '.' then none
        else if intPart = [] ∧ frac = [] then none
        else some (natOfDigits intPart, natOfDigits frac, frac.length, e)

/-- Numeric part of `parse_money`: the exact decimal value scaled by the
recorded power-of-ten multiplier. -/
def moneyVal : Nat × Nat × Nat × Nat → ℚ
  | (ip, fp, fl, e) => ((ip : ℚ) + (fp : ℚ) / (10 : ℚ) ^ fl) * (10 : ℚ) ^ e

/-- `parse_money` of the source, as the composition of the textual scan
and the exact decimal valuation. -/
def parse_money (value : Option String) : Option ℚ :=
  (moneyScan value).map moneyVal

/-- `parse_int` of the source: keep only decimal digits and read them as a
base-10 integer; `None`, the empty string and a digit-free string give no
value. -/
def parse_int (value : Option String) : Option Int :=
  match value with
  | none => none
  | some s =>
    if s.data = [] then none else
    let digits := s.data.filter Char.isDigit
    if digits = [] then none else some (natOfDigits digits : Int)

/-- First success of a partial function over a list (the backbone of
regex alternation and backtracking priority). -/
def firstSome : List α → (α → Option β) → Option β
  | [], _ => none
  | a :: t, k =>
    match k a with
    | some b => some b
    | none => firstSome t k

/-- Numeric value of a decimal digit character. -/
def digitVal (c : Char) : Nat := c.toNat - 48

/-- The decimal digit character of `n % 10`. -/
def dC (n : Nat) : Char := Char.ofNat (48 + n % 10)

/-- Two-digit zero-padded decimal rendering (`%02d` for values below 100). -/
def pad2 (n : Nat) : List Char := [dC (n / 10), dC n]

/-- Four-digit zero-padded decimal rendering (`%04d` for values below
10000). -/
def pad4 (n : Nat) : List Char := [dC (n / 1000), dC (n / 100), dC (n / 10), dC n]

/-- The ISO-8601 rendering `YYYY-MM-DD` produced by `date.isoformat`. -/
def isoChars (y m d : Nat) : List Char := pad4 y ++ '-' :: (pad2 m ++ '-' :: pad2 d)

/-- Candidate parses of the strptime day field, in the alternation
priority of its pattern (two-digit alternatives before the single
nonzero digit), each with the unread remainder. -/
def dayCands : List Char → List (Nat × List Char)
  | c1 :: c2 :: r =>
    (if (c1 = '3' ∧ (c2 = '0' ∨ c2 = '1')) ∨
        ((c1 = '1' ∨ c1 = '2') ∧ c2.isDigit) ∨
        (c1 = '0' ∧ '1' ≤ c2 ∧ c2 ≤ '9')
     then [(digitVal c1 * 10 + digitVal c2, r)] else []) ++
    (if '1' ≤ c1 ∧ c1 ≤ '9' then [(digitVal c1, c2 :: r)] else [])
  | [c1] => if '1' ≤ c1 ∧ c1 ≤ '9' then [(digitVal c1, ([] : List Char))] else []
  | [] => []

/-- Candidate parses of the strptime month field, in alternation
priority. -/
def monthCands : List Char → List (Nat × List Char)
  | c1 :: c2 :: r =>
    (if (c1 = '1' ∧ (c2 = '0' ∨ c2 = '1' ∨ c2 = '2')) ∨
        (c1 = '0' ∧ '1' ≤ c2 ∧ c2 ≤ '9')
     then [(digitVal c1 * 10 + digitVal c2, r)] else []) ++
    (if '1' ≤ c1 ∧ c1 ≤ '9' then [(digitVal c1, c2 :: r)] else [])
  | [c1] => if '1' ≤ c1 ∧ c1 ≤ '9' then [(digitVal c1, ([] : List Char))] else []
  | [] => []

/-- The strptime year field `%Y`: exactly four decimal digits. -/
def year4 : List Char → Option (Nat × List Char)
  | a :: b :: c :: d :: r =>
    if a.isDigit ∧ b.isDigit ∧ c.isDigit ∧ d.isDigit then
      some (((digitVal a * 10 + digitVal b) * 10 + digitVal c) * 10 + digitVal d, r)
    else none
  | _ => none

/-- Century fill-in applied by strptime to a two-digit year. -/
def year2map (yy : Nat) : Nat := if yy ≤ 68 then 2000 + yy else 1900 + yy

/-- The strptime year field `%y`: exactly two decimal digits, with the
century fill-in. -/
def year2 : List Char → Option (Nat × List Char)
  | a :: b :: r =>
    if a.isDigit ∧ b.isDigit then some (year2map (digitVal a * 10 + digitVal b), r)
    else none
  | _ => none

/-- Regex match of a `day sep month sep year` format anchored at the start
of the string: the first successful parse in alternation priority is
returned together with the unread remainder (strptime checks that the
remainder is empty only afterwards, without further backtracking). -/
def runDMY (sep : Char) (yr : List Char → Option (Nat × List Char))
    (s : List Char) : Option ((Nat × Nat × Nat) × List Char) :=
  firstSome (dayCands s) fun p =>
    match p.2 with
    | c :: r2 =>
      if c = sep then
        firstSome (monthCands r2) fun q =>
          match q.2 with
          | c2 :: r4 =>
            if c2 = sep then
              match yr r4 with
              | some (y, rest) => some ((y, q.1, p.1), rest)
              | none => none
            else none
          | [] => none
      else none
    | [] => none

/-- Regex match of the ISO format `%Y-%m-%d` anchored at the start of the
string. -/
def runYMD (s : List Char) : Option ((Nat × Nat × Nat) × List Char) :=
  match year4 s with
  | some (y, r1) =>
    match r1 with
    | c :: r2 =>
      if c = '-' then
        firstSome (monthCands r2) fun q =>
          match q.2 with
          | c2 :: r4 =>
            if c2 = '-' then firstSome (dayCands r4) fun p => some ((y, q.1, p.1), p.2)
            else none
          | [] => none
      else none
    | [] => none
  | none => none

/-- Gregorian leap-year rule used by `datetime`. -/
def isLeap (y : Nat) : Bool := y % 4 = 0 && (y % 100 ≠ 0 || y % 400 = 0)

/-- Days of a month as validated by the `datetime` constructor. -/
def daysInMonth (y m : Nat) : Nat :=
  if m = 2 then (if isLeap y then 29 else 28)
  else if m = 4 ∨ m = 6 ∨ m = 9 ∨ m = 11 then 30 else 31

/-- Validity check performed by the `datetime` constructor. -/
def validDate (y m d : Nat) : Bool :=
  1 ≤ y && y ≤ 9999 && 1 ≤ m && m ≤ 12 && 1 ≤ d && d ≤ daysInMonth y m

/-- The seven date formats tried by `parse_date`, in source order. -/
inductive DFmt where
  | dmy : Char → Bool → DFmt
  | ymd : DFmt

/-- The format list of `parse_date`. -/
def fmtList : List DFmt :=
  [.dmy '/' false, .dmy '-' false, .dmy '.' false,
   .dmy '/' true, .dmy '-' true, .dmy '.' true, .ymd]

/-- Anchored regex match of one format. -/
def runFmt : DFmt → List Char → Option ((Nat × Nat × Nat) × List Char)
  | .dmy sep two, s => runDMY sep (if two then year2 else year4) s
  | .ymd, s => runYMD s

/-- `parse_date` of the source: strip, then try each format in order; a
format succeeds when its pattern matches the whole string and the matched
fields form a valid calendar date, and the result is the ISO-8601
rendering.  `None` and the empty string give no value. -/
def parse_date (value : Option String) : Option String :=
  match value with
  | none => none
  | some str =>
    if str.data = [] then none else
    let s := pyStrip str.data
    firstSome fmtList fun f =>
      match runFmt f s with
      | some ((y, m, d), rest) =>
        if rest = [] ∧ validDate y m d then some (String.mk (isoChars y m d)) else none
      | none => none

/-!  ## A backtracking matcher for the regex shapes used by the extractor

Every pattern in the source is a sequence of: case-insensitive literals,
`\s*`, `\s+`, an optional literal `(?:lit)?`, lazy captures `(.+?)` and
`(.*?)`, a greedy capture `(.+)`, a non-capturing lazy `.*?`, a digit
capture `(\d+)`, and a final alternative `(?:lit|...|$)`.  All patterns
carry the IGNORECASE and DOTALL flags, so a capture dot crosses line
breaks and comparison is lower-cased.  The matcher below enumerates
alternatives in exactly the priority order of the `re` module (greedy
pieces longest first, lazy pieces shortest first, alternation left to
right) and returns the captures of the first overall success.  -/

/-- Case-insensitive literal consumption: the remainder of `s` after the
literal `l`, if `l` is a prefix of `s` up to lower-casing. -/
def stripCI : List Char → List Char → Option (List Char)
  | [], s => some s
  | _ :: _, [] => none
  | p :: pt, c :: ct => if lowerChar p = lowerChar c then stripCI pt ct else none

/-- Splits of `s` at capture lengths 1, 2, ... (lazy `(.+?)` order). -/
def plusSplits (s : List Char) : List (List Char × List Char) :=
  (List.range s.length).map fun n => (s.take (n + 1), s.drop (n + 1))

/-- Splits of `s` at capture lengths 0, 1, ... (lazy `(.*?)` order). -/
def starSplits (s : List Char) : List (List Char × List Char) :=
  (List.range (s.length + 1)).map fun n => (s.take n, s.drop n)

/-- Splits of `s` at capture lengths n, ..., 1 (greedy `(.+)` order). -/
def greedySplits (s : List Char) : List (List Char × List Char) :=
  (List.range s.length).map fun i => (s.take (s.length - i), s.drop (s.length - i))

/-- Splits of `s` for `(\d+)`: the leading digit run, longest first. -/
def digitSplits (s : List Char) : List (List Char × List Char) :=
  let k := (s.takeWhile Char.isDigit).length
  (List.range k).map fun i => (s.take (k - i), s.drop (k - i))

/-- Remainders of `s` for `\s*`: the leading whitespace run given back
greedily (longest consumption first). -/
def wsRests (s : List Char) : List (List Char) :=
  let w := (s.takeWhile pyIsSpace).length
  (List.range (w + 1)).map fun i => s.drop (w - i)

/-- Remainders of `s` for `\s+` (at least one whitespace consumed). -/
def ws1Rests (s : List Char) : List (List Char) :=
  let w := (s.takeWhile pyIsSpace).length
  (List.range w).map fun i => s.drop (w - i)

/-- The pattern constructs appearing in the source regexes. -/
inductive Pat where
  | lit : List Char → Pat
  | ws0 : Pat
  | ws1 : Pat
  | optLit : List Char → Pat
  | capLazyPlus : Pat
  | capLazyStar : Pat
  | capGreedy : Pat
  | skipLazyStar : Pat
  | capDigits : Pat
  | endOrLit : List (List Char) → Pat

/-- Backtracking match of a pattern sequence against the start of `s`,
returning captures in order of appearance for the first success in
alternation-priority order; the unread tail of `s` is unconstrained
(search semantics). -/
def mtch : List Pat → List Char → Option (List (List Char))
  | [], _ => some []
  | .lit l :: ps, s =>
    match stripCI l s with
    | some r => mtch ps r
    | none => none
  | .ws0 :: ps, s => firstSome (wsRests s) fun r => mtch ps r
  | .ws1 :: ps, s => firstSome (ws1Rests s) fun r => mtch ps r
  | .optLit l :: ps, s =>
    match stripCI l s with
    | some r =>
      match mtch ps r with
      | some cs => some cs
      | none => mtch ps s
    | none => mtch ps s
  | .capLazyPlus :: ps, s =>
    firstSome (plusSplits s) fun pr => (mtch ps pr.2).map (pr.1 :: ·)
  | .capLazyStar :: ps, s =>
    firstSome (starSplits s) fun pr => (mtch ps pr.2).map (pr.1 :: ·)
  | .capGreedy :: ps, s =>
    firstSome (greedySplits s) fun pr => (mtch ps pr.2).map (pr.1 :: ·)
  | .skipLazyStar :: ps, s => firstSome (starSplits s) fun pr => mtch ps pr.2
  | .capDigits :: ps, s =>
    firstSome (digitSplits s) fun pr => (mtch ps pr.2).map (pr.1 :: ·)
  | .endOrLit ls :: ps, s =>
    match firstSome ls (fun l =>
      match stripCI l s with
      | some r => mtch ps r
      | none => none) with
    | some cs => some cs
    | none => if s = [] ∨ s = ['\n'] then mtch ps s else none

/-- `re.search`: try the pattern at every start position, left to right. -/
def rsearch (ps : List Pat) : List Char → Option (List (List Char))
  | [] => mtch ps []
  | c :: t =>
    match mtch ps (c :: t) with
    | some cs => some cs
    | none => rsearch ps t

/-!  ## The architects extractor  -/

/-- First (and only) capture of a searched pattern, as a string. -/
def cap1 (ps : List Pat) (t : String) : Option String :=
  (rsearch ps t.data).map fun c => String.mk (c.getD 0 [])

/-- First capture of a searched pattern, trimmed. -/
def cap1strip (ps : List Pat) (t : String) : Option String :=
  (rsearch ps t.data).map fun c => String.mk (pyStrip (c.getD 0 []))

/-- `_lines`: split the text and strip each line. -/
def theLines (t : String) : List String :=
  (pySplitlines t.data).map fun l => String.mk (pyStrip l)

/-- Does a line contain one of the candidate labels (case-insensitive)? -/
def lineHasLabel (line : String) (needles : List String) : Bool :=
  needles.any fun nd => listContains (line.data.map lowerChar) (nd.data.map lowerChar)

/-- Worker for `_find_line_index`, carrying the current index. -/
def findLineIdxFrom : List String → List String → Nat → Option Nat
  | [], _, _ => none
  | l :: ls, nds, i =>
    if lineHasLabel l nds then some i else findLineIdxFrom ls nds (i + 1)

/-- `_find_line_index`: index of the first line containing any candidate
label as a case-insensitive substring. -/
def findLineIdx (lines needles : List String) : Option Nat :=
  findLineIdxFrom lines needles 0

/-- Same-line part of `_extract_after_label`: split the line on the first
`:` or `-` and return the trimmed remainder when it is non-empty. -/
def sameLineRemainder (line : String) : Option String :=
  match line.data.dropWhile (fun c => ¬(c = ':' ∨ c = '-')) with
  | [] => none
  | _ :: after => if pyStrip after = [] then none else some (String.mk (pyStrip after))

/-- Lookahead part of `_extract_after_label`: scan at most the given
number of following lines and return the first non-empty trimmed line. -/
def scanAhead (lines : List String) : Nat → Nat → Option String
  | _, 0 => none
  | pos, n + 1 =>
    if lines.length ≤ pos then none
    else
      let nxt := pyStrip (lines.getD pos "").data
      if nxt = [] then scanAhead lines (pos + 1) n else some (String.mk nxt)

/-- `_extract_after_label`: locate the label line, prefer the same-line
remainder after a `:` or `-`, otherwise look ahead a bounded number of
lines for the first non-empty one. -/
def extractAfterLabel (lines labels : List String) (maxLA : Nat) : Option String :=
  match findLineIdx lines labels with
  | none => none
  | some i =>
    match sameLineRemainder (lines.getD i "") with
    | some v => some v
    | none => scanAhead lines (i + 1) maxLA

/-- Literal pattern helper. -/
def plit (s : String) : Pat := .lit s.data

/-- Pattern of the staff figures searched in the joined window. -/
def staffPrincPat : List Pat := [plit "Principals", .ws1, .capDigits]

/-- Pattern of the qualified staff figure. -/
def staffQualPat : List Pat := [plit "Qualified Staff", .ws1, .capDigits]

/-- Pattern of the unqualified staff figure. -/
def staffUnqPat : List Pat := [plit "Unqualified Staff", .ws1, .capDigits]

/-- Pattern of the other staff figure. -/
def staffOthPat : List Pat := [plit "Others", .ws1, .capDigits]

/-- One staff figure of `_extract_staff_block`: only computed when the
anchor line is found, from the window of six lines joined by spaces. -/
def staffVal (lines : List String) (pat : List Pat) : Option String :=
  match findLineIdx lines ["Total Number of Staff"] with
  | none => none
  | some i => cap1 pat (String.mk (joinSpace ((lines.drop i).take 6)))

/-- The four staff entries of the raw map. -/
def staffEntries (lines : List String) : List (String × Option String) :=
  [("staff_principals_raw", staffVal lines staffPrincPat),
   ("staff_qualified_raw", staffVal lines staffQualPat),
   ("staff_unqualified_raw", staffVal lines staffUnqPat),
   ("staff_others_raw", staffVal lines staffOthPat)]

/-- The current-policy row pattern of `_extract_current_pi_block`. -/
def piPat : List Pat :=
  [plit "Current Professional Indemnity Policy", .ws0,
   plit "Insurer", .ws0, .capLazyPlus, .ws1,
   plit "Broker", .ws0, .capLazyPlus, .ws1,
   plit "Limit of Indemnity", .ws0, .capLazyPlus, .ws1,
   plit "Excess", .ws0, .capLazyPlus, .ws1,
   plit "Premium", .ws0, .capLazyPlus, .ws1,
   plit "Renewal Date", .ws0, .capGreedy]

/-- One trimmed capture of the current-policy row. -/
def piCap (t : String) (i : Nat) : Option String :=
  (rsearch piPat t.data).map fun c => String.mk (pyStrip (c.getD i []))

/-- The six current-policy entries of the raw map. -/
def piEntries (t : String) : List (String × Option String) :=
  [("current_pi_insurer_raw", piCap t 0),
   ("current_pi_broker_raw", piCap t 1),
   ("current_pi_limit_raw", piCap t 2),
   ("current_pi_excess_raw", piCap t 3),
   ("current_pi_premium_raw", piCap t 4),
   ("current_pi_renewal_raw", piCap t 5)]

/-- The turnover-table pattern of `_extract_turnover_latest_year`. -/
def turnPat : List Pat :=
  [plit "Breakdown of turnover/fees", .skipLazyStar,
   plit "UK", .ws0, .capLazyPlus,
   plit "USA/Canada", .ws0, .capLazyPlus,
   plit "EU", .ws0, .capLazyPlus,
   plit "Elsewhere", .ws0, .capLazyPlus,
   plit "Total"]

/-- Character class of the numeric-looking tokens of a turnover row. -/
def moneyTok (c : Char) : Bool :=
  c = '£' || c.isDigit || c = ',' || c = '.' || c = 'k' || c = 'K' || c = 'm' || c = 'M'

/-- Worker grouping maximal runs of token characters. -/
def moneyRunsGo : List Char → List Char → List (List Char)
  | cur, [] => if cur = [] then [] else [cur.reverse]
  | cur, c :: r =>
    if moneyTok c then moneyRunsGo (c :: cur) r
    else (if cur = [] then [] else [cur.reverse]) ++ moneyRunsGo [] r

/-- `re.findall` of the numeric-token class: maximal runs, left to
right. -/
def moneyRuns (l : List Char) : List (List Char) := moneyRunsGo [] l

/-- `last_number`: the last numeric-looking token of a row. -/
def lastNumber (row : List Char) : Option String :=
  (moneyRuns row).getLast?.map String.mk

/-- The turnover entries of the raw map: the rule contributes no entries
at all when its block pattern does not match. -/
def turnoverEntries (t : String) : List (String × Option String) :=
  match rsearch turnPat t.data with
  | none => []
  | some caps =>
    [("turnover_latest_uk_raw", lastNumber (caps.getD 0 [])),
     ("turnover_latest_usa_canada_raw", lastNumber (caps.getD 1 [])),
     ("turnover_latest_eu_raw", lastNumber (caps.getD 2 [])),
     ("turnover_latest_elsewhere_raw", lastNumber (caps.getD 3 []))]

/-- Percentage pattern of the new-build activity row. -/
def actNewBuildPat : List Pat :=
  [plit "Architectural Work", .ws0, plit "-", .ws0, plit "New Build", .ws0,
   .capDigits, .ws0, plit "%"]

/-- Percentage pattern of the non-structural refurbishment row (with the
optional dash of the source). -/
def actRefurbPat : List Pat :=
  [plit "Architectural Work", .ws0, .optLit "–".data, .ws0,
   plit "Non-Structural Refurbishment", .ws0, .capDigits, .ws0, plit "%"]

/-- Percentage pattern of the building-surveys row. -/
def actSurveysPat : List Pat :=
  [plit "Building Surveys Non-Structural", .ws0, plit "/", .ws0,
   plit "Land Surveys", .ws0, .capDigits, .ws0, plit "%"]

/-- Percentage pattern of the civil-engineering row. -/
def actCivilPat : List Pat := [plit "Civil Engineering", .ws0, .capDigits, .ws0, plit "%"]

/-- Percentage pattern of the structural-surveys row. -/
def actStructPat : List Pat :=
  [plit "Structural Surveys", .ws0, plit "/", .ws0, plit "Valuations", .ws0,
   .capDigits, .ws0, plit "%"]

/-- Percentage pattern of the project-management row. -/
def actPMPat : List Pat := [plit "Project Management", .ws0, .capDigits, .ws0, plit "%"]

/-- Percentage pattern of the project-coordination row. -/
def actPCPat : List Pat := [plit "Project Co-Ordination", .ws0, .capDigits, .ws0, plit "%"]

/-- Percentage pattern of the interior-design row. -/
def actIntPat : List Pat := [plit "Interior Design", .ws0, .capDigits, .ws0, plit "%"]

/-- Percentage pattern of the quantity-surveying row. -/
def actQSPat : List Pat := [plit "Quantity Surveying", .ws0, .capDigits, .ws0, plit "%"]

/-- Percentage pattern of the other-activity row. -/
def actOtherPat : List Pat :=
  [plit "Other:", .ws0, .optLit "Please describe:".data, .ws0, .capDigits, .ws0, plit "%"]

/-- Description pattern of the other-activity row. -/
def actOtherDescPat : List Pat :=
  [plit "Other:", .ws0, .optLit "Please describe:".data, .ws0, plit "%", .skipLazyStar,
   plit "Description of other work:", .ws0, .capLazyPlus, .endOrLit ["Total:".data]]

/-- The activity entries of the raw map: one explicit entry per field,
holding no value when the field pattern does not match. -/
def activityEntries (t : String) : List (String × Option String) :=
  [("activity_architectural_new_build_pct_raw", cap1 actNewBuildPat t),
   ("activity_architectural_non_structural_refurb_pct_raw", cap1 actRefurbPat t),
   ("activity_building_surveys_non_structural_land_pct_raw", cap1 actSurveysPat t),
   ("activity_civil_engineering_pct_raw", cap1 actCivilPat t),
   ("activity_structural_surveys_valuations_pct_raw", cap1 actStructPat t),
   ("activity_project_management_pct_raw", cap1 actPMPat t),
   ("activity_project_coordination_pct_raw", cap1 actPCPat t),
   ("activity_interior_design_pct_raw", cap1 actIntPat t),
   ("activity_quantity_surveying_pct_raw", cap1 actQSPat t),
   ("activity_other_pct_raw", cap1 actOtherPat t),
   ("activity_other_description_raw", cap1strip actOtherDescPat t)]

/-- Percentage pattern of housing under three floors. -/
def conHousingUnderPat : List Pat :=
  [plit "Housing", .ws0, plit "(Under", .ws0, plit "3", .ws0, plit "Floors)", .ws0,
   .capDigits, .ws0, plit "%"]

/-- Percentage pattern of housing over three floors. -/
def conHousingOverPat : List Pat :=
  [plit "Housing", .ws0, plit "(Over", .ws0, plit "3", .ws0, plit "Floors)", .ws0,
   .capDigits, .ws0, plit "%"]

/-- Percentage pattern of office and retail contracts. -/
def conOfficePat : List Pat :=
  [plit "Office", .ws0, plit "/", .ws0, plit "Retail", .ws0, .capDigits, .ws0, plit "%"]

/-- Percentage pattern of schools, hospitals and municipal buildings. -/
def conSchoolsPat : List Pat :=
  [plit "Schools", .ws0, plit "/", .ws0, plit "Hospitals", .ws0, plit "/", .ws0,
   plit "Municipal Buildings", .ws0, .capDigits, .ws0, plit "%"]

/-- Percentage pattern of roads, highways and motorways. -/
def conRoadsPat : List Pat :=
  [plit "Roads", .ws0, plit "/", .ws0, plit "Highways", .ws0, plit "/", .ws0,
   plit "Motorways", .ws0, .capDigits, .ws0, plit "%"]

/-- Percentage pattern of power plants. -/
def conPowerPat : List Pat := [plit "Power Plants", .ws0, .capDigits, .ws0, plit "%"]

/-- Percentage pattern of cladding, glazing and curtain walling. -/
def conCladdingPat : List Pat :=
  [plit "Cladding", .ws0, plit "/", .ws0, plit "Glazing", .ws0, plit "/", .ws0,
   plit "Curtain Walling", .ws0, .capDigits, .ws0, plit "%"]

/-- Percentage pattern of the other-contract row. -/
def conOtherPat : List Pat := [plit "Other:", .ws0, .capDigits, .ws0, plit "%"]

/-- Description pattern of the other-contract row. -/
def conDescPat : List Pat :=
  [plit "Description of other work:", .ws0, .capLazyPlus, .endOrLit ["Total:".data]]

/-- The contract-type entries of the raw map. -/
def contractEntries (t : String) : List (String × Option String) :=
  [("contract_housing_under_3_floors_pct_raw", cap1 conHousingUnderPat t),
   ("contract_housing_over_3_floors_pct_raw", cap1 conHousingOverPat t),
   ("contract_office_retail_pct_raw", cap1 conOfficePat t),
   ("contract_schools_hospitals_municipal_pct_raw", cap1 conSchoolsPat t),
   ("contract_roads_highways_pct_raw", cap1 conRoadsPat t),
   ("contract_power_plants_pct_raw", cap1 conPowerPat t),
   ("contract_cladding_glazing_curtain_walling_pct_raw", cap1 conCladdingPat t),
   ("contract_other_pct_raw", cap1 conOtherPat t),
   ("contract_other_description_raw", cap1strip conDescPat t)]

/-- Pattern of the claims disclosure block. -/
def claimsPat : List Pat :=
  [plit "Has any claim been made or loss suffered", .skipLazyStar,
   plit "If YES, please provide details below", .capLazyStar,
   .endOrLit ["Are you aware of any of the following?".data]]

/-- Pattern of the circumstances disclosure block. -/
def circPat : List Pat :=
  [plit "Are you aware of any of the following?", .capLazyStar,
   .endOrLit ["Name of Principal Signing this form:".data, "DECLARATION".data]]

/-- The raw field map of `extract`, in construction order of the source;
every rule writes its entries here and the turnover rule writes none when
unmatched. -/
def buildRaw (t : String) : List (String × Option String) :=
  let lines := theLines t
  [("firm_name", extractAfterLabel lines ["Full trading names of all Firms", "Name(s)"] 3),
   ("date_established", extractAfterLabel lines ["Date Established"] 2),
   ("website", extractAfterLabel lines ["2a) Website"] 2),
   ("email", extractAfterLabel lines ["2b) Email Address"] 2),
   ("telephone", extractAfterLabel lines ["2c) Telephone Number"] 2)]
  ++ staffEntries lines ++ piEntries t ++ turnoverEntries t
  ++ activityEntries t ++ contractEntries t
  ++ [("claims_block_raw", cap1strip claimsPat t),
      ("circumstances_block_raw", cap1strip circPat t)]

/-- Typed values of the normalized map. -/
inductive NormVal where
  | s : String → NormVal
  | q : ℚ → NormVal
  | i : Int → NormVal
  | b : Bool → NormVal
deriving DecidableEq

/-- `dict.get`: a missing key and an explicit `None` both read as no
value. -/
def rawGet (raw : List (String × Option String)) (k : String) : Option String :=
  (List.lookup k raw).join

/-- String pass-through into the normalized map. -/
def optS (o : Option String) : Option NormVal := o.map NormVal.s

/-- Truthiness of `raw.get(k) and raw[k].strip()`. -/
def truthyStrip : Option String → Bool
  | none => false
  | some s => !(pyStrip s.data).isEmpty

/-- Normalized entries, first quarter of the source order (firm basics,
staff counts, policy strings and the limit amount). -/
def normSeg0 (raw : List (String × Option String)) : List (String × Option NormVal) :=
  let g := rawGet raw
  [("firm_name", optS (g "firm_name")),
   ("date_established", optS (parse_date (g "date_established"))),
   ("website", optS (g "website")),
   ("email", optS (g "email")),
   ("telephone", optS (g "telephone")),
   ("staff_principals", (parse_int (g "staff_principals_raw")).map NormVal.i),
   ("staff_qualified", (parse_int (g "staff_qualified_raw")).map NormVal.i),
   ("staff_unqualified", (parse_int (g "staff_unqualified_raw")).map NormVal.i),
   ("staff_others", (parse_int (g "staff_others_raw")).map NormVal.i),
   ("current_pi_insurer", optS (g "current_pi_insurer_raw")),
   ("current_pi_broker", optS (g "current_pi_broker_raw"))]

/-- Normalized entries, second quarter of the source order (policy
amounts and dates, turnover amounts, first percentage). -/
def normSeg1 (raw : List (String × Option String)) : List (String × Option NormVal) :=
  let g := rawGet raw
  [("current_pi_limit_raw", optS (g "current_pi_limit_raw")),
   ("current_pi_limit_amount", (parse_money (g "current_pi_limit_raw")).map NormVal.q),
   ("current_pi_excess_raw", optS (g "current_pi_excess_raw")),
   ("current_pi_excess_amount", (parse_money (g "current_pi_excess_raw")).map NormVal.q),
   ("current_pi_premium_raw", optS (g "current_pi_premium_raw")),
   ("current_pi_premium_amount", (parse_money (g "current_pi_premium_raw")).map NormVal.q),
   ("current_pi_renewal_date", optS (parse_date (g "current_pi_renewal_raw"))),
   ("turnover_latest_uk", (parse_money (g "turnover_latest_uk_raw")).map NormVal.q),
   ("turnover_latest_usa_canada", (parse_money (g "turnover_latest_usa_canada_raw")).map NormVal.q),
   ("turnover_latest_eu", (parse_money (g "turnover_latest_eu_raw")).map NormVal.q),
   ("turnover_latest_elsewhere", (parse_money (g "turnover_latest_elsewhere_raw")).map NormVal.q)]

/-- Normalized entries, third quarter of the source order
(percentages). -/
def normSeg2 (raw : List (String × Option String)) : List (String × Option NormVal) :=
  let g := rawGet raw
  [("activity_architectural_new_build_pct", (parse_int (g "activity_architectural_new_build_pct_raw")).map NormVal.i),
   ("activity_architectural_non_structural_refurb_pct", (parse_int (g "activity_architectural_non_structural_refurb_pct_raw")).map NormVal.i),
   ("activity_building_surveys_non_structural_land_pct", (parse_int (g "activity_building_surveys_non_structural_land_pct_raw")).map NormVal.i),
   ("activity_civil_engineering_pct", (parse_int (g "activity_civil_engineering_pct_raw")).map NormVal.i),
   ("activity_structural_surveys_valuations_pct", (parse_int (g "activity_structural_surveys_valuations_pct_raw")).map NormVal.i),
   ("activity_project_management_pct", (parse_int (g "activity_project_management_pct_raw")).map NormVal.i),
   ("activity_project_coordination_pct", (parse_int (g "activity_project_coordination_pct_raw")).map NormVal.i),
   ("activity_interior_design_pct", (parse_int (g "activity_interior_design_pct_raw")).map NormVal.i),
   ("activity_quantity_surveying_pct", (parse_int (g "activity_quantity_surveying_pct_raw")).map NormVal.i),
   ("activity_other_pct", (parse_int (g "activity_other_pct_raw")).map NormVal.i),
   ("contract_housing_under_3_floors_pct", (parse_int (g "contract_housing_under_3_floors_pct_raw")).map NormVal.i)]

/-- Normalized entries, last quarter of the source order (remaining
percentages, descriptions and disclosure flags). -/
def normSeg3 (raw : List (String × Option String)) : List (String × Option NormVal) :=
  let g := rawGet raw
  [("contract_housing_over_3_floors_pct", (parse_int (g "contract_housing_over_3_floors_pct_raw")).map NormVal.i),
   ("contract_office_retail_pct", (parse_int (g "contract_office_retail_pct_raw")).map NormVal.i),
   ("contract_schools_hospitals_municipal_pct", (parse_int (g "contract_schools_hospitals_municipal_pct_raw")).map NormVal.i),
   ("contract_roads_highways_pct", (parse_int (g "contract_roads_highways_pct_raw")).map NormVal.i),
   ("contract_power_plants_pct", (parse_int (g "contract_power_plants_pct_raw")).map NormVal.i),
   ("contract_cladding_glazing_curtain_walling_pct", (parse_int (g "contract_cladding_glazing_curtain_walling_pct_raw")).map NormVal.i),
   ("contract_other_pct", (parse_int (g "contract_other_pct_raw")).map NormVal.i),
   ("activity_other_description", optS (g "activity_other_description_raw")),
   ("contract_other_description", optS (g "contract_other_description_raw")),
   ("has_claims_disclosed", some (NormVal.b (truthyStrip (g "claims_block_raw")))),
   ("has_circumstances_disclosed", some (NormVal.b (truthyStrip (g "circumstances_block_raw"))))]

/-- The normalized map of `extract`: every entry is derived from the raw
map alone, field by field, in source order (stated in four segments only
to keep each definition small). -/
def normalize (raw : List (String × Option String)) : List (String × Option NormVal) :=
  normSeg0 raw ++ normSeg1 raw ++ normSeg2 raw ++ normSeg3 raw

/-- `ArchitectsExtractor.extract`: the raw map and the normalized map
derived from it. -/
def extract (t : String) : List (String × Option String) × List (String × Option NormVal) :=
  let raw := buildRaw t
  (raw, normalize raw)

/-- The primary anchor phrase of `match_score`. -/
def anchor1 : String := "professional indemnity insurance proposal form for architects"

/-- The activities anchor phrase of `match_score`. -/
def anchor2 : String := "breakdown of your activities and percentage of income generated for each discipline"

/-- The contract-types anchor phrase of `match_score`. -/
def anchor3 : String := "breakdown of contract types described below and percentage of income generated"

/-- `ArchitectsExtractor.match_score`: fixed weighted increments for each
anchor phrase found in the lower-cased text, capped at one. -/
def match_score (t : String) : ℚ :=
  let lt := t.data.map lowerChar
  let score := (if listContains lt anchor1.data then (7 : ℚ)/10 else 0) +
               (if listContains lt anchor2.data then (2 : ℚ)/10 else 0) +
               (if listContains lt anchor3.data then (1 : ℚ)/10 else 0)
  min score 1

/-- The registered template extractors. -/
inductive ExtractorId where
  | architects : ExtractorId
deriving DecidableEq

/-- The registry list (order fixed at registration). -/
def EXTRACTORS : List ExtractorId := [.architects]

/-- Match score of a registered extractor. -/
def extractorScore (e : ExtractorId) (t : String) : ℚ :=
  match e with
  | .architects => match_score t

/-- `choose_best_extractor`: keep the strictly best score while scanning
in registration order, and reject a best score below the threshold of
one half. -/
def choose_best_extractor (t : String) : Option ExtractorId :=
  let r := EXTRACTORS.foldl
    (fun acc e => let sc := extractorScore e t; if acc.2 < sc then (some e, sc) else acc)
    ((none : Option ExtractorId), (0 : ℚ))
  if r.2 < 1/2 then none else r.1

/-- The successful response body of the extraction endpoint. -/
structure ApiResponse where
  template_id : Option String
  profession : Option String
  insurer : Option String
  insurer_confidence : ℚ
  fields_raw : List (String × Option String)
  fields_normalized : List (String × Option NormVal)
deriving DecidableEq

/-- Outcome of one call of the extraction endpoint. -/
inductive ApiResult where
  | httpError : Nat → String → ApiResult
  | success : ApiResponse → ApiResult
deriving DecidableEq

/-- Template identifier of a registered extractor. -/
def templateIdOf (e : ExtractorId) : String :=
  match e with
  | .architects => "apex_architects_v1"

/-- Profession of a registered extractor. -/
def professionOf (e : ExtractorId) : String :=
  match e with
  | .architects => "architects"

/-- Extraction function of a registered extractor. -/
def extractOf (e : ExtractorId) (t : String) :
    List (String × Option String) × List (String × Option NormVal) :=
  match e with
  | .architects => extract t

/-- `norm.get("current_pi_insurer") or None`: the insurer string of the
normalized map, with an empty string read as no value. -/
def insurerOf (norm : List (String × Option NormVal)) : Option String :=
  match (List.lookup "current_pi_insurer" norm).join with
  | some (.s v) => if v.data = [] then none else some v
  | _ => none

/-- `extract_endpoint`: reject blank input with status 400, report the
absence of a suitable template with status 422, and otherwise run the
chosen extractor and return its result. -/
def extract_endpoint (ocr_text : String) : ApiResult :=
  if pyStrip ocr_text.data = [] then .httpError 400 "ocr_text is required"
  else
    match choose_best_extractor ocr_text with
    | none => .httpError 422 "No suitable template extractor found for the provided text"
    | some e =>
      let res := extractOf e ocr_text
      .success
        { template_id := some (templateIdOf e)
          profession := some (professionOf e)
          insurer := insurerOf res.2
          insurer_confidence := 0
          fields_raw := res.1
          fields_normalized := res.2 }

/-!  ## Lemmas and claim theorems  -/

/-- The raw keys contributed by the turnover rule when it matches. -/
def turnoverKeyList : List String :=
  ["turnover_latest_uk_raw", "turnover_latest_usa_canada_raw",
   "turnover_latest_eu_raw", "turnover_latest_elsewhere_raw"]

/-- The synthetic document of the end-to-end property: the primary anchor
phrase plus the current-policy table row (with its block label). -/
def sampleDoc : String :=
  "Professional Indemnity Insurance Proposal Form for Architects\nCurrent Professional Indemnity Policy Insurer Acme Broker BrokerCo Limit of Indemnity £500,000 Excess £5,000 Premium £1,200 Renewal Date 01/06/2025"

/-- Position of the insurer entry in the normalized map. -/
theorem lookup_norm_insurer (raw : List (String × Option String)) :
    List.lookup "current_pi_insurer" (normalize raw) =
      some (optS (rawGet raw "current_pi_insurer_raw")) := rfl

/-- Position of the limit-amount entry in the normalized map. -/
theorem lookup_norm_limit_amount (raw : List (String × Option String)) :
    List.lookup "current_pi_limit_amount" (normalize raw) =
      some ((parse_money (rawGet raw "current_pi_limit_raw")).map NormVal.q) := rfl

/-- Position of the renewal-date entry in the normalized map. -/
theorem lookup_norm_renewal (raw : List (String × Option String)) :
    List.lookup "current_pi_renewal_date" (normalize raw) =
      some (optS (parse_date (rawGet raw "current_pi_renewal_raw"))) := rfl

/-- C1: on a synthetic document holding the primary anchor phrase and the
policy row with insurer Acme, broker BrokerCo, limit £500,000, excess
£5,000, premium £1,200 and renewal date 01/06/2025, `extract` normalizes
the insurer to the string Acme, the limit amount to the number 500000 and
the renewal date to 2025-06-01. -/
theorem extract_end_to_end :
    List.lookup "current_pi_insurer" (extract sampleDoc).2 = some (some (NormVal.s "Acme")) ∧
    List.lookup "current_pi_limit_amount" (extract sampleDoc).2 = some (some (NormVal.q 500000)) ∧
    List.lookup "current_pi_renewal_date" (extract sampleDoc).2 =
      some (some (NormVal.s "2025-06-01")) := by
  have e2 : (extract sampleDoc).2 = normalize (buildRaw sampleDoc) := rfl
  have h1 : rawGet (buildRaw sampleDoc) "current_pi_insurer_raw" = some "Acme" := by decide
  have h2 : rawGet (buildRaw sampleDoc) "current_pi_limit_raw" = some "£500,000" := by decide
  have h3 : rawGet (buildRaw sampleDoc) "current_pi_renewal_raw" = some "01/06/2025" := by decide
  have hs : moneyScan (some "£500,000") = some (500000, 0, 0, 0) := by decide
  have hm : parse_money (some "£500,000") = some 500000 := by
    rw [parse_money, hs, Option.map_some']
    norm_num [moneyVal]
  have hd : parse_date (some "01/06/2025") = some "2025-06-01" := by decide
  refine ⟨?_, ?_, ?_⟩
  · rw [e2, lookup_norm_insurer, h1]; rfl
  · rw [e2, lookup_norm_limit_amount, h2, hm]; rfl
  · rw [e2, lookup_norm_renewal, h3, hd]; rfl

/-- C5: the money-parsing examples of the specification. -/
theorem money_examples :
    parse_money (some "£1,250") = some 1250 ∧
    parse_money (some "2k") = some 2000 ∧
    parse_money (some "1.5m") = some 1500000 ∧
    parse_money (some "") = none ∧
    parse_money none = none := by
  have h1 : moneyScan (some "£1,250") = some (1250, 0, 0, 0) := by decide
  have h2 : moneyScan (some "2k") = some (2, 0, 0, 3) := by decide
  have h3 : moneyScan (some "1.5m") = some (1, 5, 1, 6) := by decide
  refine ⟨?_, ?_, ?_, rfl, rfl⟩ <;> rw [parse_money]
  · rw [h1, Option.map_some']; norm_num [moneyVal]
  · rw [h2, Option.map_some']; norm_num [moneyVal]
  · rw [h3, Option.map_some']; norm_num [moneyVal]

/-- C8: for every input text, the current-policy rule has no partial
success: either all six raw fields are trimmed captured strings of one
pattern match, or all six are no value. -/
theorem pi_block_all_or_nothing (t : String) :
    (piEntries t).map Prod.snd = [none, none, none, none, none, none] ∨
    ∃ caps, rsearch piPat t.data = some caps ∧
      (piEntries t).map Prod.snd =
        [some (String.mk (pyStrip (caps.getD 0 []))),
         some (String.mk (pyStrip (caps.getD 1 []))),
         some (String.mk (pyStrip (caps.getD 2 []))),
         some (String.mk (pyStrip (caps.getD 3 []))),
         some (String.mk (pyStrip (caps.getD 4 []))),
         some (String.mk (pyStrip (caps.getD 5 [])))] := by
  cases h : rsearch piPat t.data with
  | none => left; simp [piEntries, piCap, h]
  | some caps => right; exact ⟨caps, rfl, by simp [piEntries, piCap, h]⟩

/-- C9: the normalized map is a function of the raw map alone: two texts
with equal raw maps have equal normalized maps. -/
theorem normalized_from_raw_only (t1 t2 : String)
    (h : (extract t1).1 = (extract t2).1) : (extract t1).2 = (extract t2).2 := by
  have h' : buildRaw t1 = buildRaw t2 := h
  show normalize (buildRaw t1) = normalize (buildRaw t2)
  rw [h']

/-- Witness of C9 at two concrete texts with equal raw maps. -/
theorem normalized_from_raw_only_witness :
    (extract "hello").2 = (extract "world").2 :=
  normalized_from_raw_only "hello" "world" (by decide)

/-- C10: `parse_int` and `parse_money` never produce a negative value
(sign characters are stripped with the other non-numeric characters), and
in particular the input string -500 normalizes to 500 under both. -/
theorem numeric_nonneg :
    (∀ s q, parse_money s = some q → 0 ≤ q) ∧
    (∀ s n, parse_int s = some n → 0 ≤ n) ∧
    parse_int (some "-500") = some 500 ∧
    parse_money (some "-500") = some 500 := by
  have hmoney : ∀ s q, parse_money s = some q → (0 : ℚ) ≤ q := by
    intro s q h
    rw [parse_money] at h
    obtain ⟨p, _, hval⟩ := Option.map_eq_some'.mp h
    obtain ⟨ip, fp, fl, e⟩ := p
    rw [← hval, moneyVal]
    positivity
  have hint : ∀ s n, parse_int s = some n → (0 : Int) ≤ n := by
    intro s n h
    match s with
    | none => exact absurd h (by simp [parse_int])
    | some str =>
      simp only [parse_int] at h
      split at h
      · exact absurd h (by simp)
      · split at h
        · exact absurd h (by simp)
        · rw [Option.some_inj] at h
          rw [← h]
          exact Int.natCast_nonneg _
  refine ⟨hmoney, hint, by decide, ?_⟩
  have hs : moneyScan (some "-500") = some (500, 0, 0, 0) := by decide
  rw [parse_money, hs, Option.map_some']
  norm_num [moneyVal]

/-- Witness of C10: its universal parts applied at the -500 input. -/
theorem numeric_nonneg_witness : (0 : ℚ) ≤ 500 ∧ (0 : Int) ≤ 500 :=
  ⟨numeric_nonneg.1 (some "-500") 500 numeric_nonneg.2.2.2,
   numeric_nonneg.2.1 (some "-500") 500 numeric_nonneg.2.2.1⟩

/-- The match score is never negative. -/
theorem match_score_nonneg (t : String) : 0 ≤ match_score t := by
  simp only [match_score]
  refine le_min ?_ (by norm_num)
  split_ifs <;> norm_num

/-- Evaluation of the selector over its one-extractor registry. -/
theorem choose_eval (t : String) :
    choose_best_extractor t =
      if match_score t < 1/2 then none else some .architects := by
  simp only [choose_best_extractor, EXTRACTORS, List.foldl, extractorScore]
  by_cases h : (0 : ℚ) < match_score t
  · simp [h]
  · have h0 : match_score t = 0 := le_antisymm (not_lt.mp h) (match_score_nonneg t)
    rw [h0] at h ⊢
    simp [h]

/-- C2: a text containing the primary anchor phrase and neither of the
other anchor phrases scores at least one half and is selected; a text
containing none of the three anchor phrases scores zero and selects no
template, the best score being below the fixed threshold of one half. -/
theorem match_selection (t : String) :
    (listContains (t.data.map lowerChar) anchor1.data = true →
     listContains (t.data.map lowerChar) anchor2.data = false →
     listContains (t.data.map lowerChar) anchor3.data = false →
     (1 : ℚ)/2 ≤ match_score t ∧ choose_best_extractor t = some .architects) ∧
    (listContains (t.data.map lowerChar) anchor1.data = false →
     listContains (t.data.map lowerChar) anchor2.data = false →
     listContains (t.data.map lowerChar) anchor3.data = false →
     match_score t = 0 ∧ choose_best_extractor t = none) := by
  constructor
  · intro h1 h2 h3
    have hs : match_score t = 7/10 := by
      simp only [match_score, h1, h2, h3]
      norm_num
    refine ⟨by rw [hs]; norm_num, ?_⟩
    rw [choose_eval, hs, if_neg (by norm_num)]
  · intro h1 h2 h3
    have hs : match_score t = 0 := by
      simp only [match_score, h1, h2, h3]
      norm_num
    refine ⟨hs, ?_⟩
    rw [choose_eval, hs, if_pos (by norm_num)]

/-- The primary anchor phrase is found in itself and the other anchor
phrases are not. -/
theorem anchor_only_primary :
    listContains (anchor1.data.map lowerChar) anchor1.data = true ∧
    listContains (anchor1.data.map lowerChar) anchor2.data = false ∧
    listContains (anchor1.data.map lowerChar) anchor3.data = false := by
  refine ⟨by decide, by decide, by decide⟩

/-- A one-letter text contains no anchor phrase. -/
theorem anchor_none_in_a :
    listContains ("a".data.map lowerChar) anchor1.data = false ∧
    listContains ("a".data.map lowerChar) anchor2.data = false ∧
    listContains ("a".data.map lowerChar) anchor3.data = false := by
  refine ⟨by decide, by decide, by decide⟩

/-- Witness of C2 at the primary anchor phrase itself and at a text with
no anchor phrase. -/
theorem match_selection_witness :
    ((1 : ℚ)/2 ≤ match_score anchor1 ∧ choose_best_extractor anchor1 = some .architects) ∧
    (match_score "a" = 0 ∧ choose_best_extractor "a" = none) :=
  ⟨(match_selection anchor1).1 anchor_only_primary.1 anchor_only_primary.2.1
      anchor_only_primary.2.2,
   (match_selection "a").2 anchor_none_in_a.1 anchor_none_in_a.2.1 anchor_none_in_a.2.2⟩

/-- Scores below the threshold, at a one-letter text (helper of the C3
witness). -/
theorem scores_below_at_a : ∀ e ∈ EXTRACTORS, extractorScore e "a" < 1/2 := by
  simp only [EXTRACTORS, List.mem_singleton, forall_eq, extractorScore]
  have hs : match_score "a" = 0 := by
    simp only [match_score, anchor_none_in_a.1, anchor_none_in_a.2.1, anchor_none_in_a.2.2]
    norm_num
  rw [hs]
  norm_num

/-- C3: the extraction endpoint rejects blank input with status 400,
reports with status 422 (and no partial result) when every registered
score is below the threshold, and these are the only failure outcomes. -/
theorem endpoint_failure_modes (t : String) :
    (pyStrip t.data = [] → extract_endpoint t = .httpError 400 "ocr_text is required") ∧
    (pyStrip t.data ≠ [] → (∀ e ∈ EXTRACTORS, extractorScore e t < 1/2) →
      extract_endpoint t =
        .httpError 422 "No suitable template extractor found for the provided text") ∧
    (∀ code msg, extract_endpoint t = .httpError code msg →
      (code = 400 ∧ pyStrip t.data = []) ∨
      (code = 422 ∧ pyStrip t.data ≠ [] ∧ ∀ e ∈ EXTRACTORS, extractorScore e t < 1/2)) := by
  have hall : (∀ e ∈ EXTRACTORS, extractorScore e t < 1/2) ↔ match_score t < 1/2 := by
    constructor
    · intro h
      exact h .architects (by simp [EXTRACTORS])
    · intro h e _
      cases e
      exact h
  refine ⟨?_, ?_, ?_⟩
  · intro h
    rw [extract_endpoint, if_pos h]
  · intro h1 h2
    rw [extract_endpoint, if_neg h1, choose_eval, if_pos (hall.mp h2)]
  · intro code msg h
    by_cases hstrip : pyStrip t.data = []
    · rw [extract_endpoint, if_pos hstrip] at h
      exact Or.inl ⟨(ApiResult.httpError.inj h.symm).1, hstrip⟩
    · rw [extract_endpoint, if_neg hstrip, choose_eval] at h
      by_cases hlt : match_score t < 1/2
      · rw [if_pos hlt] at h
        exact Or.inr ⟨(ApiResult.httpError.inj h.symm).1, hstrip, hall.mpr hlt⟩
      · rw [if_neg hlt] at h
        exact absurd h (by simp)

/-- Witness of C3 at a blank text and at a text with no anchor phrase. -/
theorem endpoint_failure_modes_witness :
    extract_endpoint "" = .httpError 400 "ocr_text is required" ∧
    extract_endpoint "a" =
      .httpError 422 "No suitable template extractor found for the provided text" :=
  ⟨(endpoint_failure_modes "").1 rfl,
   (endpoint_failure_modes "a").2.1 (by decide) scores_below_at_a⟩

/-- C7: with the label line holding no same-line value and followed by
two blank lines and a non-empty line, a lookahead of three resolves to
that line trimmed and a lookahead of one resolves to no value. -/
theorem label_lookahead (lines labels : List String) (i : Nat)
    (hidx : findLineIdx lines labels = some i)
    (hsame : sameLineRemainder (lines.getD i "") = none)
    (hb1 : pyStrip (lines.getD (i + 1) "").data = [])
    (hb2 : pyStrip (lines.getD (i + 2) "").data = [])
    (hlen : i + 3 < lines.length)
    (hval : pyStrip (lines.getD (i + 3) "").data ≠ []) :
    extractAfterLabel lines labels 3 =
      some (String.mk (pyStrip (lines.getD (i + 3) "").data)) ∧
    extractAfterLabel lines labels 1 = none := by
  have l1 : ¬ lines.length ≤ i + 1 := by omega
  have l2 : ¬ lines.length ≤ i + 1 + 1 := by omega
  have l3 : ¬ lines.length ≤ i + 1 + 1 + 1 := by omega
  have e2 : i + 1 + 1 = i + 2 := by omega
  have e3 : i + 1 + 1 + 1 = i + 3 := by omega
  constructor
  · rw [extractAfterLabel, hidx]
    simp only [hsame]
    rw [show (3 : Nat) = 2 + 1 from rfl, scanAhead, if_neg l1, hb1]
    simp only [reduceIte]
    rw [show (2 : Nat) = 1 + 1 from rfl, scanAhead, if_neg l2, e2, hb2]
    simp only [reduceIte]
    rw [scanAhead, if_neg l3, e3, if_neg hval]
  · rw [extractAfterLabel, hidx]
    simp only [hsame]
    rw [show (1 : Nat) = 0 + 1 from rfl, scanAhead, if_neg l1, hb1]
    simp only [reduceIte]
    rw [scanAhead]

/-- Witness of C7 at a concrete four-line sequence. -/
theorem label_lookahead_witness :
    extractAfterLabel ["Date Established:", "", "", "01/02/2003"] ["Date Established"] 3 =
      some "01/02/2003" ∧
    extractAfterLabel ["Date Established:", "", "", "01/02/2003"] ["Date Established"] 1 =
      none := by
  have h := label_lookahead ["Date Established:", "", "", "01/02/2003"] ["Date Established"] 0
    (by decide) (by decide) (by decide) (by decide) (by decide) (by decide)
  exact ⟨by rw [h.1]; rfl, h.2⟩

/-- C4 counterexample: on a text where the turnover block rule finds
nothing, the raw map holds no explicit no-value entry for the turnover
fields; the keys are absent altogether. -/
theorem turnover_entry_absent_cx :
    rsearch turnPat "x".data = none ∧
    List.lookup "turnover_latest_uk_raw" (buildRaw "x") = none ∧
    ¬ List.lookup "turnover_latest_uk_raw" (buildRaw "x") = some none := by
  refine ⟨by decide, by decide, by decide⟩

/-- C4 amended: every activity field always has an explicit raw entry
carrying its rule output (no value on a miss) and extraction still
returns the full map, while the turnover rule contributes no entries at
all when its block pattern does not match, so its four keys are then
absent from the raw map (reading as no value rather than being explicit
null entries). -/
theorem per_field_miss_amended (t : String) :
    (∀ p ∈ activityEntries t, p ∈ buildRaw t) ∧
    (activityEntries t).map Prod.fst =
      ["activity_architectural_new_build_pct_raw",
       "activity_architectural_non_structural_refurb_pct_raw",
       "activity_building_surveys_non_structural_land_pct_raw",
       "activity_civil_engineering_pct_raw",
       "activity_structural_surveys_valuations_pct_raw",
       "activity_project_management_pct_raw",
       "activity_project_coordination_pct_raw",
       "activity_interior_design_pct_raw",
       "activity_quantity_surveying_pct_raw",
       "activity_other_pct_raw",
       "activity_other_description_raw"] ∧
    (rsearch turnPat t.data = none →
      ∀ k ∈ turnoverKeyList, ¬ k ∈ (buildRaw t).map Prod.fst) := by
  refine ⟨?_, rfl, ?_⟩
  · intro p hp
    simp only [buildRaw]
    exact List.mem_append_left _ (List.mem_append_left _ (List.mem_append_right _ hp))
  · intro h k hk
    simp only [buildRaw, turnoverEntries, h, staffEntries, piEntries, activityEntries,
      contractEntries, List.map_append, List.map_cons, List.map_nil, List.append_nil,
      List.nil_append] at *
    simp only [turnoverKeyList, List.mem_cons, List.not_mem_nil, or_false] at hk
    rcases hk with rfl | rfl | rfl | rfl <;> decide

/-- Witness of C4 amended at a one-letter text. -/
theorem per_field_miss_amended_witness :
    ("activity_civil_engineering_pct_raw", cap1 actCivilPat "x") ∈ buildRaw "x" ∧
    ¬ "turnover_latest_uk_raw" ∈ (buildRaw "x").map Prod.fst :=
  ⟨(per_field_miss_amended "x").1 _ (by decide),
   (per_field_miss_amended "x").2.2 (by decide) _ (by decide)⟩

/-!  ## Idempotence of date normalization  -/

/-- Evaluation of `firstSome` on a cons. -/
theorem firstSome_cons (a : α) (l : List α) (k : α → Option β) :
    firstSome (a :: l) k =
      match k a with
      | some b => some b
      | none => firstSome l k := rfl

/-- `firstSome` fails when the function fails on every element. -/
theorem firstSome_eq_none {l : List α} {k : α → Option β}
    (h : ∀ a ∈ l, k a = none) : firstSome l k = none := by
  induction l with
  | nil => rfl
  | cons a t ih =>
    rw [firstSome_cons, h a (List.mem_cons_self a t)]
    exact ih fun x hx => h x (List.mem_cons_of_mem a hx)

/-- A success of `firstSome` comes from some element. -/
theorem firstSome_eq_some {l : List α} {k : α → Option β} {b : β}
    (h : firstSome l k = some b) : ∃ a ∈ l, k a = some b := by
  induction l with
  | nil => exact absurd h (by simp [firstSome])
  | cons a t ih =>
    rw [firstSome_cons] at h
    cases hka : k a with
    | some c =>
      rw [hka] at h
      exact ⟨a, List.mem_cons_self a t, hka.trans h⟩
    | none =>
      rw [hka] at h
      obtain ⟨x, hx, hkx⟩ := ih h
      exact ⟨x, List.mem_cons_of_mem a hx, hkx⟩

/-- Facts about decimal digit characters: they are digits, not
whitespace, not separators, and carry their numeric value. -/
theorem dC_facts (n : Nat) :
    (dC n).isDigit = true ∧ pyIsSpace (dC n) = false ∧ digitVal (dC n) = n % 10 ∧
    dC n ≠ '/' ∧ dC n ≠ '-' ∧ dC n ≠ '.' := by
  have h : ∀ k, k < 10 →
      ((Char.ofNat (48 + k)).isDigit = true ∧ pyIsSpace (Char.ofNat (48 + k)) = false ∧
       digitVal (Char.ofNat (48 + k)) = k ∧ Char.ofNat (48 + k) ≠ '/' ∧
       Char.ofNat (48 + k) ≠ '-' ∧ Char.ofNat (48 + k) ≠ '.') := by decide
  rw [dC]
  exact h (n % 10) (Nat.mod_lt _ (by norm_num))

/-- A digit character is not a date separator. -/
theorem dC_ne_sep {sep : Char} (hsep : sep = '/' ∨ sep = '-' ∨ sep = '.') (n : Nat) :
    dC n ≠ sep := by
  rcases hsep with rfl | rfl | rfl
  · exact (dC_facts n).2.2.2.1
  · exact (dC_facts n).2.2.2.2.1
  · exact (dC_facts n).2.2.2.2.2

/-- `dropWhile` leaves a list with no satisfying member unchanged. -/
theorem dropWhile_eq_self_of {p : Char → Bool} {l : List Char}
    (h : ∀ c ∈ l, p c = false) : l.dropWhile p = l := by
  cases l with
  | nil => rfl
  | cons a t => simp [List.dropWhile_cons, h a (List.mem_cons_self a t)]

/-- Stripping a string with no whitespace leaves it unchanged. -/
theorem pyStrip_eq_self {l : List Char} (h : ∀ c ∈ l, pyIsSpace c = false) :
    pyStrip l = l := by
  rw [pyStrip, dropWhile_eq_self_of h,
    dropWhile_eq_self_of fun c hc => h c (List.mem_reverse.mp hc), List.reverse_reverse]

/-- The ISO rendering of a date contains no whitespace. -/
theorem isoChars_no_space (y m d : Nat) : ∀ c ∈ isoChars y m d, pyIsSpace c = false := by
  intro c hc
  have he : isoChars y m d =
      [dC (y/1000), dC (y/100), dC (y/10), dC y, '-',
       dC (m/10), dC m, '-', dC (d/10), dC d] := rfl
  rw [he] at hc
  simp only [List.mem_cons, List.not_mem_nil, or_false] at hc
  rcases hc with rfl | rfl | rfl | rfl | rfl | rfl | rfl | rfl | rfl | rfl <;>
    first
    | exact (dC_facts _).2.1
    | decide

/-- Every strptime day candidate leaves a remainder starting at the
second or third character of the input. -/
theorem dayCands_rest {a b : Char} {r : List Char} :
    ∀ p ∈ dayCands (a :: b :: r), p.2 = r ∨ p.2 = b :: r := by
  intro p hp
  simp only [dayCands] at hp
  rcases List.mem_append.mp hp with h | h
  · split at h
    · simp only [List.mem_singleton] at h
      subst h
      exact Or.inl rfl
    · exact absurd h (List.not_mem_nil p)
  · split at h
    · simp only [List.mem_singleton] at h
      subst h
      exact Or.inr rfl
    · exact absurd h (List.not_mem_nil p)

/-- The month candidates of a zero-padded month start with the month
itself and the remainder beyond its two characters. -/
theorem monthCands_pad2 {m : Nat} (h1 : 1 ≤ m) (h2 : m ≤ 12) (r : List Char) :
    ∃ tl, monthCands (pad2 m ++ r) = (m, r) :: tl := by
  interval_cases m <;> exact ⟨_, rfl⟩

/-- The day candidates of a zero-padded day start with the day itself
and the remainder beyond its two characters. -/
theorem dayCands_pad2 {d : Nat} (h1 : 1 ≤ d) (h2 : d ≤ 31) (r : List Char) :
    ∃ tl, dayCands (pad2 d ++ r) = (d, r) :: tl := by
  interval_cases d <;> exact ⟨_, rfl⟩

/-- The `%Y` field reads back a four-digit zero-padded year. -/
theorem year4_pad4 {y : Nat} (hy : y ≤ 9999) (r : List Char) :
    year4 (pad4 y ++ r) = some (y, r) := by
  show year4 (dC (y/1000) :: dC (y/100) :: dC (y/10) :: dC y :: r) = some (y, r)
  rw [year4, if_pos ⟨(dC_facts _).1, (dC_facts _).1, (dC_facts _).1, (dC_facts _).1⟩,
    (dC_facts (y/1000)).2.2.1, (dC_facts (y/100)).2.2.1, (dC_facts (y/10)).2.2.1,
    (dC_facts y).2.2.1]
  have : ((y / 1000 % 10 * 10 + y / 100 % 10) * 10 + y / 10 % 10) * 10 + y % 10 = y := by
    omega
  rw [this]

/-- Every day-month-year format fails on an ISO rendering: the day field
reads one or two digits and then meets a digit where its separator is
required. -/
theorem runDMY_iso {sep : Char} (hsep : sep = '/' ∨ sep = '-' ∨ sep = '.')
    (yr : List Char → Option (Nat × List Char)) (y m d : Nat) :
    runDMY sep yr (isoChars y m d) = none := by
  rw [runDMY]
  apply firstSome_eq_none
  intro p hp
  have he : isoChars y m d =
      dC (y/1000) :: dC (y/100) ::
        (dC (y/10) :: dC y :: '-' :: (pad2 m ++ '-' :: pad2 d)) := rfl
  rw [he] at hp
  rcases dayCands_rest p hp with h2 | h2 <;>
    rw [h2] <;>
    exact if_neg fun hc => dC_ne_sep hsep _ hc

/-- The ISO format reads back the ISO rendering of an in-range date. -/
theorem runYMD_iso {y m d : Nat} (hy : y ≤ 9999) (hm1 : 1 ≤ m) (hm2 : m ≤ 12)
    (hd1 : 1 ≤ d) (hd2 : d ≤ 31) :
    runYMD (isoChars y m d) = some ((y, m, d), []) := by
  have h4 : year4 (isoChars y m d) = some (y, '-' :: (pad2 m ++ '-' :: pad2 d)) := by
    have he : isoChars y m d = pad4 y ++ ('-' :: (pad2 m ++ '-' :: pad2 d)) := rfl
    rw [he, year4_pad4 hy]
  rw [runYMD, h4]
  simp only [reduceIte]
  obtain ⟨tl, htl⟩ := monthCands_pad2 hm1 hm2 ('-' :: pad2 d)
  rw [htl, firstSome_cons]
  simp only [reduceIte]
  have hd0 : pad2 d = pad2 d ++ [] := (List.append_nil _).symm
  rw [hd0]
  obtain ⟨tl2, htl2⟩ := dayCands_pad2 hd1 hd2 []
  rw [htl2, firstSome_cons]

/-- Months have at most 31 days under the `datetime` validation. -/
theorem daysInMonth_le (y m : Nat) : daysInMonth y m ≤ 31 := by
  rw [daysInMonth]
  split_ifs <;> omega

/-- A valid date reparses from its own ISO rendering to itself. -/
theorem parse_date_iso (y m d : Nat) (hv : validDate y m d = true) :
    parse_date (some (String.mk (isoChars y m d))) =
      some (String.mk (isoChars y m d)) := by
  have hb := hv
  simp only [validDate, Bool.and_eq_true, decide_eq_true_eq] at hb
  obtain ⟨⟨⟨⟨⟨hy1, hy2⟩, hm1⟩, hm2⟩, hd1⟩, hdm⟩ := hb
  have hd31 : d ≤ 31 := le_trans hdm (daysInMonth_le y m)
  have k1 : runDMY '/' year4 (isoChars y m d) = none := runDMY_iso (Or.inl rfl) _ y m d
  have k2 : runDMY '-' year4 (isoChars y m d) = none :=
    runDMY_iso (Or.inr (Or.inl rfl)) _ y m d
  have k3 : runDMY '.' year4 (isoChars y m d) = none :=
    runDMY_iso (Or.inr (Or.inr rfl)) _ y m d
  have k4 : runDMY '/' year2 (isoChars y m d) = none := runDMY_iso (Or.inl rfl) _ y m d
  have k5 : runDMY '-' year2 (isoChars y m d) = none :=
    runDMY_iso (Or.inr (Or.inl rfl)) _ y m d
  have k6 : runDMY '.' year2 (isoChars y m d) = none :=
    runDMY_iso (Or.inr (Or.inr rfl)) _ y m d
  have k7 : runYMD (isoChars y m d) = some ((y, m, d), []) :=
    runYMD_iso hy2 hm1 hm2 hd1 hd31
  have hne : ¬ (String.mk (isoChars y m d)).data = [] := by
    have he : isoChars y m d =
        [dC (y/1000), dC (y/100), dC (y/10), dC y, '-',
         dC (m/10), dC m, '-', dC (d/10), dC d] := rfl
    simp [he]
  simp only [parse_date, hne, if_false, reduceIte]
  have hstrip : pyStrip (String.mk (isoChars y m d)).data = isoChars y m d :=
    pyStrip_eq_self (isoChars_no_space y m d)
  rw [hstrip]
  simp only [fmtList, firstSome_cons, runFmt, Bool.false_eq_true, reduceIte,
    k1, k2, k3, k4, k5, k6, k7, hv, and_true]

/-- Every successful `parse_date` result is the ISO rendering of a valid
date. -/
theorem parse_date_shape {v s : String} (h : parse_date (some v) = some s) :
    ∃ y m d, validDate y m d = true ∧ s = String.mk (isoChars y m d) := by
  simp only [parse_date] at h
  split at h
  · exact absurd h (by simp)
  · obtain ⟨f, _, hk⟩ := firstSome_eq_some h
    cases hr : runFmt f (pyStrip v.data) with
    | none => rw [hr] at hk; exact absurd hk (by simp)
    | some p =>
      obtain ⟨⟨y, m, d⟩, rest⟩ := p
      rw [hr] at hk
      simp only at hk
      split_ifs at hk with hcond
      · exact ⟨y, m, d, hcond.2, (Option.some_inj.mp hk).symm⟩

/-- C6: date normalization is idempotent: whenever `parse_date` accepts a
string, reparsing its ISO output returns that same output. -/
theorem date_idempotent (v s : String) (h : parse_date (some v) = some s) :
    parse_date (some s) = some s := by
  obtain ⟨y, m, d, hv, rfl⟩ := parse_date_shape h
  exact parse_date_iso y m d hv

/-- Witness of C6 at a concrete supported date string. -/
theorem date_idempotent_witness : parse_date (some "2025-06-01") = some "2025-06-01" :=
  date_idempotent "01/06/2025" "2025-06-01" (by decide)

end Apex
